import Mathlib

/-!
Verification of the bouncing-box core of pixels-winit-minimal (src/main.rs).

The program keeps a world state of four i16 fields (box position and
velocity), advances it once per redraw tick with World.update, and rasterizes
it into a linear RGBA byte buffer with World.draw.  We embed the i16 fields as
integers together with an explicit twos-complement (wrapping) embedding at 16 bits, which is
the semantics of Rust release-mode arithmetic on i16.
-/

/-- Constant WIDTH from src/main.rs (u32, logical surface width). -/
def WIDTH : ℕ := 320

/-- Constant HEIGHT from src/main.rs (u32, logical surface height). -/
def HEIGHT : ℕ := 240

/-- Constant BOX_SIZE from src/main.rs (i16, side length of the box). -/
def BOX_SIZE : ℤ := 64

/-- Twos-complement (wrapping) reduction of an integer into the i16 range [-32768, 32767].
This is what Rust i16 arithmetic (release mode) does on overflow, and also
what an as-cast to i16 from an unsigned integer does. -/
def wrap16 (n : ℤ) : ℤ := (n + 32768) % 65536 - 32768

/-- The World struct from src/main.rs: box position and velocity, i16 fields
embedded as integers in the i16 range. -/
@[ext] structure World where
  box_x : ℤ
  box_y : ℤ
  velocity_x : ℤ
  velocity_y : ℤ
deriving DecidableEq, Repr

/-- A state is representable when every field is in the i16 range. -/
def valid16 (w : World) : Prop :=
  -32768 ≤ w.box_x ∧ w.box_x ≤ 32767 ∧
  -32768 ≤ w.box_y ∧ w.box_y ≤ 32767 ∧
  -32768 ≤ w.velocity_x ∧ w.velocity_x ≤ 32767 ∧
  -32768 ≤ w.velocity_y ∧ w.velocity_y ≤ 32767

instance (w : World) : Decidable (valid16 w) := by unfold valid16; infer_instance

/-- World.new from src/main.rs: the state built once at program start. -/
def World.new : World :=
  { box_x := 24, box_y := 16, velocity_x := 1, velocity_y := 1 }

/-- World.update from src/main.rs: negate velocity_x when
box_x <= 0 or box_x + BOX_SIZE > WIDTH (i16 arithmetic, so the sum wraps),
independently negate velocity_y against HEIGHT, then add the (possibly
negated) velocities to the position, again with i16 wrapping. -/
def World.update (w : World) : World :=
  let vx := if w.box_x ≤ 0 ∨ (WIDTH : ℤ) < wrap16 (w.box_x + BOX_SIZE)
    then wrap16 (-w.velocity_x) else w.velocity_x
  let vy := if w.box_y ≤ 0 ∨ (HEIGHT : ℤ) < wrap16 (w.box_y + BOX_SIZE)
    then wrap16 (-w.velocity_y) else w.velocity_y
  { box_x := wrap16 (w.box_x + vx)
    box_y := wrap16 (w.box_y + vy)
    velocity_x := vx
    velocity_y := vy }

/-- The box color constant from World.draw (RGBA bytes 0x5e 0x48 0xe8 0xff). -/
def boxColor : List ℕ := [0x5e, 0x48, 0xe8, 0xff]

/-- The background color constant from World.draw
(RGBA bytes 0x48 0xb2 0xe8 0xff). -/
def backgroundColor : List ℕ := [0x48, 0xb2, 0xe8, 0xff]

/-- One loop iteration of World.draw: the four RGBA bytes written to pixel
chunk i.  In the source, x = (i % WIDTH as usize) as i16 and
y = (i / WIDTH as usize) as i16 (as-casts wrap at 16 bits), and the inside
test compares x and y against box_x + BOX_SIZE and box_y + BOX_SIZE computed
in i16 arithmetic. -/
def pixelBytes (w : World) (i : ℕ) : List ℕ :=
  let x : ℤ := wrap16 ((i % WIDTH : ℕ) : ℤ)
  let y : ℤ := wrap16 ((i / WIDTH : ℕ) : ℤ)
  if x ≥ w.box_x ∧ x < wrap16 (w.box_x + BOX_SIZE) ∧
     y ≥ w.box_y ∧ y < wrap16 (w.box_y + BOX_SIZE)
  then boxColor else backgroundColor

/-- World.draw from src/main.rs as a buffer transformer: the frame is walked
in 4-byte chunks (chunks_exact_mut(4)); chunk i is overwritten with
pixelBytes i, and the trailing frame.length % 4 bytes, which chunks_exact
never visits, are left as they were. -/
def World.draw (w : World) (frame : List ℕ) : List ℕ :=
  (List.range (frame.length / 4)).flatMap (pixelBytes w) ++
    frame.drop (4 * (frame.length / 4))

/-- The update step exactly as the specification words it (claim C1): negate
velocity_x iff box_x <= 0 or box_x + size > width on the pre-update position,
independently negate velocity_y against the height, then add the possibly
negated velocities — all in exact integer arithmetic, no 16-bit wrap. -/
def updateSpec (w : World) : World :=
  let vx := if w.box_x ≤ 0 ∨ w.box_x + BOX_SIZE > (WIDTH : ℤ) then -w.velocity_x else w.velocity_x
  let vy := if w.box_y ≤ 0 ∨ w.box_y + BOX_SIZE > (HEIGHT : ℤ) then -w.velocity_y else w.velocity_y
  { box_x := w.box_x + vx
    box_y := w.box_y + vy
    velocity_x := vx
    velocity_y := vy }

/-- Inductive invariant for the x axis of the bounce: velocity is a unit and
the position is confined to [-1, 258], with the two stray values -1 and 258
only reachable with the matching velocity sign. -/
def InvX (w : World) : Prop :=
  (w.velocity_x = 1 ∨ w.velocity_x = -1) ∧
  ((0 ≤ w.box_x ∧ w.box_x ≤ 256) ∨
   (w.box_x = -1 ∧ w.velocity_x = -1) ∨
   w.box_x = 257 ∨
   (w.box_x = 258 ∧ w.velocity_x = 1))

/-- Inductive invariant for the y axis of the bounce, the analogue of InvX
with height 240 and the on-screen band [0, 176]. -/
def InvY (w : World) : Prop :=
  (w.velocity_y = 1 ∨ w.velocity_y = -1) ∧
  ((0 ≤ w.box_y ∧ w.box_y ≤ 176) ∨
   (w.box_y = -1 ∧ w.velocity_y = -1) ∨
   w.box_y = 177 ∨
   (w.box_y = 178 ∧ w.velocity_y = 1))

example : World.new.update = { box_x := 25, box_y := 17, velocity_x := 1, velocity_y := 1 } := by decide

example : pixelBytes World.new (16 * 320 + 24) = boxColor := by decide

example : pixelBytes World.new 0 = backgroundColor := by decide

lemma wrap16_bounds (n : ℤ) : -32768 ≤ wrap16 n ∧ wrap16 n ≤ 32767 := by
  unfold wrap16; omega

lemma wrap16_eq_self {n : ℤ} (h1 : -32768 ≤ n) (h2 : n ≤ 32767) : wrap16 n = n := by
  unfold wrap16; omega

/-- C8: the world state produced at program start by the constructor has
position (24, 16) and velocity (1, 1). -/
theorem new_has_initial_position_and_velocity :
    World.new.box_x = 24 ∧ World.new.box_y = 16 ∧
    World.new.velocity_x = 1 ∧ World.new.velocity_y = 1 :=
  ⟨rfl, rfl, rfl, rfl⟩

/-- C6: update is total — it is a function on states, and it sends every
representable state (all four i16 fields in range) to a representable
state; no input is rejected and no error value exists. -/
theorem update_total_on_valid_states (w : World) (hw : valid16 w) :
    valid16 w.update := by
  obtain ⟨hx1, hx2, hy1, hy2, hvx1, hvx2, hvy1, hvy2⟩ := hw
  unfold valid16 World.update
  dsimp only
  refine ⟨(wrap16_bounds _).1, (wrap16_bounds _).2,
          (wrap16_bounds _).1, (wrap16_bounds _).2, ?_, ?_, ?_, ?_⟩ <;>
    split_ifs <;>
      first
        | exact (wrap16_bounds _).1
        | exact (wrap16_bounds _).2
        | assumption

/-- Witness for C6 at the initial program state. -/
theorem update_total_on_valid_states_witness : valid16 World.new.update :=
  update_total_on_valid_states World.new (by decide)

lemma update_velocity_unit_step (w : World)
    (hx : w.velocity_x = 1 ∨ w.velocity_x = -1)
    (hy : w.velocity_y = 1 ∨ w.velocity_y = -1) :
    (w.update.velocity_x = 1 ∨ w.update.velocity_x = -1) ∧
    (w.update.velocity_y = 1 ∨ w.update.velocity_y = -1) := by
  unfold World.update
  dsimp only
  refine ⟨?_, ?_⟩
  · split_ifs with h
    · rcases hx with h1 | h1 <;> rw [h1] <;> decide
    · exact hx
  · split_ifs with h
    · rcases hy with h1 | h1 <;> rw [h1] <;> decide
    · exact hy

/-- C9: if both velocity components lie in the set consisting of -1 and 1,
then after any number of update steps they still do — update only ever
flips a velocity sign, never its magnitude. -/
theorem velocity_stays_unit (n : ℕ) (w : World)
    (hx : w.velocity_x = 1 ∨ w.velocity_x = -1)
    (hy : w.velocity_y = 1 ∨ w.velocity_y = -1) :
    ((World.update^[n] w).velocity_x = 1 ∨ (World.update^[n] w).velocity_x = -1) ∧
    ((World.update^[n] w).velocity_y = 1 ∨ (World.update^[n] w).velocity_y = -1) := by
  induction n generalizing w with
  | zero => exact ⟨hx, hy⟩
  | succ n ih =>
    rw [Function.iterate_succ_apply]
    obtain ⟨h1, h2⟩ := update_velocity_unit_step w hx hy
    exact ih w.update h1 h2

/-- Witness for C9: three steps from the initial state keep unit velocities. -/
theorem velocity_stays_unit_witness :
    ((World.update^[3] World.new).velocity_x = 1 ∨ (World.update^[3] World.new).velocity_x = -1) ∧
    ((World.update^[3] World.new).velocity_y = 1 ∨ (World.update^[3] World.new).velocity_y = -1) :=
  velocity_stays_unit 3 World.new (Or.inl rfl) (Or.inl rfl)

lemma invX_step (w : World) (h : InvX w) : InvX w.update := by
  unfold InvX World.update at *
  dsimp only
  obtain ⟨hv, hp⟩ := h
  split_ifs with hc <;>
    simp only [wrap16, BOX_SIZE, WIDTH] at * <;> omega

lemma invY_step (w : World) (h : InvY w) : InvY w.update := by
  unfold InvY World.update at *
  dsimp only
  obtain ⟨hv, hp⟩ := h
  split_ifs with hc <;>
    simp only [wrap16, BOX_SIZE, HEIGHT] at * <;> omega

lemma invX_iterate (n : ℕ) (w : World) (h : InvX w) : InvX (World.update^[n] w) := by
  induction n generalizing w with
  | zero => exact h
  | succ n ih => rw [Function.iterate_succ_apply]; exact ih _ (invX_step w h)

lemma invY_iterate (n : ℕ) (w : World) (h : InvY w) : InvY (World.update^[n] w) := by
  induction n generalizing w with
  | zero => exact h
  | succ n ih => rw [Function.iterate_succ_apply]; exact ih _ (invY_step w h)

/-- Counterexample to C3 as stated: the claim restricts only the size, not
the initial position or velocity.  From the representable initial state with
box_x = 320, velocity_x = -1 (inside the claimed interval [-1, width]), a
single update (n = 1 <= 10000) reflects and moves the box to box_x = 321,
outside [-1, 320]. -/
theorem bounded_motion_cex :
    ¬ ((World.update^[1] { box_x := 320, box_y := 16, velocity_x := -1, velocity_y := 1 }).box_x ≤ 320) := by
  decide

/-- C3 (amended): for every initial state with unit velocities and the box
fully on the surface (0 <= box_x <= width - size = 256 and
0 <= box_y <= height - size = 176), after any number n of updates — in
particular every n up to 10000 — the position stays in
box_x in [-1, width] and box_y in [-1, height]; the box never drifts
unboundedly. -/
theorem bounded_motion (w : World) (n : ℕ)
    (hvx : w.velocity_x = 1 ∨ w.velocity_x = -1)
    (hvy : w.velocity_y = 1 ∨ w.velocity_y = -1)
    (hx : 0 ≤ w.box_x ∧ w.box_x ≤ 256)
    (hy : 0 ≤ w.box_y ∧ w.box_y ≤ 176) :
    -1 ≤ (World.update^[n] w).box_x ∧ (World.update^[n] w).box_x ≤ 320 ∧
    -1 ≤ (World.update^[n] w).box_y ∧ (World.update^[n] w).box_y ≤ 240 := by
  have hX : InvX (World.update^[n] w) := invX_iterate n w ⟨hvx, Or.inl hx⟩
  have hY : InvY (World.update^[n] w) := invY_iterate n w ⟨hvy, Or.inl hy⟩
  unfold InvX at hX
  unfold InvY at hY
  obtain ⟨-, hX⟩ := hX
  obtain ⟨-, hY⟩ := hY
  omega

/-- Witness for C3: the initial program state stays in bounds at tick
10000. -/
theorem bounded_motion_witness :
    -1 ≤ (World.update^[10000] World.new).box_x ∧
    (World.update^[10000] World.new).box_x ≤ 320 ∧
    -1 ≤ (World.update^[10000] World.new).box_y ∧
    (World.update^[10000] World.new).box_y ≤ 240 :=
  bounded_motion World.new 10000 (Or.inl rfl) (Or.inl rfl) (by decide) (by decide)

/-- Counterexample to C1 as stated: at the representable state with
box_x = 32704, the i16 sum box_x + 64 wraps to -32768, so the code does not
negate velocity_x even though box_x + size > width holds over the integers;
the claimed exact-arithmetic description (updateSpec) disagrees with update. -/
theorem update_ne_spec_at_overflow :
    World.update { box_x := 32704, box_y := 16, velocity_x := 1, velocity_y := 1 } ≠
      updateSpec { box_x := 32704, box_y := 16, velocity_x := 1, velocity_y := 1 } := by
  decide

/-- C1 (amended): on every representable state where none of the 16-bit
computations overflows — box_x + size and box_y + size stay below 2^15, the
velocities are not -2^15, and the position plus or minus the velocity stays
in i16 range — update behaves exactly as the claim words it: it negates
velocity_x iff box_x <= 0 or box_x + size > width on the pre-update position,
independently negates velocity_y against the height, and then adds the
possibly negated velocities to the position. -/
theorem update_eq_spec_without_overflow (w : World) (hw : valid16 w)
    (hx64 : w.box_x + BOX_SIZE ≤ 32767) (hy64 : w.box_y + BOX_SIZE ≤ 32767)
    (hvx : -32767 ≤ w.velocity_x) (hvy : -32767 ≤ w.velocity_y)
    (hxa : -32768 ≤ w.box_x + w.velocity_x ∧ w.box_x + w.velocity_x ≤ 32767)
    (hxs : -32768 ≤ w.box_x - w.velocity_x ∧ w.box_x - w.velocity_x ≤ 32767)
    (hya : -32768 ≤ w.box_y + w.velocity_y ∧ w.box_y + w.velocity_y ≤ 32767)
    (hys : -32768 ≤ w.box_y - w.velocity_y ∧ w.box_y - w.velocity_y ≤ 32767) :
    w.update = updateSpec w := by
  obtain ⟨hx1, hx2, hy1, hy2, hvx1, hvx2, hvy1, hvy2⟩ := hw
  unfold World.update updateSpec
  ext <;> dsimp only <;>
    simp only [wrap16, BOX_SIZE, WIDTH, HEIGHT] at * <;>
    split_ifs at * <;> omega

/-- Witness for C1 at the initial program state. -/
theorem update_eq_spec_without_overflow_witness :
    World.new.update = updateSpec World.new :=
  update_eq_spec_without_overflow World.new (by decide) (by decide) (by decide)
    (by decide) (by decide) (by decide) (by decide) (by decide) (by decide)

/-- Counterexample to C4 as stated: at box_x = width - size = 256 with
velocity_x = 1 the bounce condition box_x + 64 > 320 is false (the comparison
is strict), so one update leaves velocity_x = 1 and moves the box to 257 —
not velocity_x = -1 and box_x = 255 as claimed. -/
theorem reflection_at_edge_cex :
    ¬ ((World.update { box_x := 256, box_y := 16, velocity_x := 1, velocity_y := 1 }).velocity_x = -1 ∧
       (World.update { box_x := 256, box_y := 16, velocity_x := 1, velocity_y := 1 }).box_x = 255) := by
  decide

/-- C4 (amended): if the state before update has box_x = width - size = 256
and velocity_x = 1, then one update leaves velocity_x = 1 and sets
box_x = 257 = width - size + 1; the reflection fires one tick later: a second
update yields velocity_x = -1 and box_x = 256 = width - size. -/
theorem reflection_one_past_right_edge (w : World)
    (hx : w.box_x = 256) (hv : w.velocity_x = 1) :
    w.update.velocity_x = 1 ∧ w.update.box_x = 257 ∧
    w.update.update.velocity_x = -1 ∧ w.update.update.box_x = 256 := by
  unfold World.update
  dsimp only
  rw [hx, hv]
  norm_num [wrap16, BOX_SIZE, WIDTH]

lemma pixelBytes_length (w : World) (i : ℕ) : (pixelBytes w i).length = 4 := by
  unfold pixelBytes
  dsimp only
  split_ifs <;> rfl

lemma length_range_flatMap_pixelBytes (w : World) (n : ℕ) :
    ((List.range n).flatMap (pixelBytes w)).length = 4 * n := by
  induction n with
  | zero => rfl
  | succ n ih =>
    rw [List.range_succ, List.flatMap_append, List.length_append, ih,
      List.flatMap_singleton, pixelBytes_length]
    omega

lemma range_flatMap_pixelBytes_chunk (w : World) (n i : ℕ) (hi : i < n) :
    (((List.range n).flatMap (pixelBytes w)).drop (4 * i)).take 4 = pixelBytes w i := by
  induction n with
  | zero => omega
  | succ n ih =>
    rw [List.range_succ, List.flatMap_append, List.flatMap_singleton,
      List.drop_append_eq_append_drop]
    rcases Nat.lt_or_ge i n with h | h
    · have h0 : 4 * i - ((List.range n).flatMap (pixelBytes w)).length = 0 := by
        rw [length_range_flatMap_pixelBytes]; omega
      rw [h0, List.drop_zero,
        List.take_append_of_le_length
          (by rw [List.length_drop, length_range_flatMap_pixelBytes]; omega)]
      exact ih h
    · have h' : i = n := by omega
      subst h'
      rw [List.drop_eq_nil_of_le (by rw [length_range_flatMap_pixelBytes])]
      have h0 : 4 * i - ((List.range i).flatMap (pixelBytes w)).length = 0 := by
        rw [length_range_flatMap_pixelBytes]; omega
      rw [h0, List.drop_zero, List.nil_append, ← pixelBytes_length w i, List.take_length]

lemma draw_chunk (w : World) (frame : List ℕ) (i : ℕ) (hi : i < frame.length / 4) :
    ((w.draw frame).drop (4 * i)).take 4 = pixelBytes w i := by
  unfold World.draw
  rw [List.drop_append_eq_append_drop,
    List.take_append_of_le_length
      (by rw [List.length_drop, length_range_flatMap_pixelBytes]; omega)]
  exact range_flatMap_pixelBytes_chunk w _ i hi

lemma draw_length (w : World) (frame : List ℕ) :
    (w.draw frame).length = frame.length := by
  unfold World.draw
  rw [List.length_append, length_range_flatMap_pixelBytes, List.length_drop]
  omega

lemma pixelBytes_two_colors (w : World) (i : ℕ) :
    pixelBytes w i = boxColor ∨ pixelBytes w i = backgroundColor := by
  unfold pixelBytes
  dsimp only
  split_ifs
  · exact Or.inl rfl
  · exact Or.inr rfl

lemma draw_eq_of_chunked_length (w : World) (f1 f2 : List ℕ)
    (hlen : f1.length = f2.length) (hdvd : 4 ∣ f1.length) :
    w.draw f1 = w.draw f2 := by
  unfold World.draw
  rw [hlen]
  congr 1
  rw [List.drop_eq_nil_of_le (by omega), List.drop_eq_nil_of_le (by omega)]

lemma pixelBytes_velocity_independent (w1 w2 : World)
    (hbx : w1.box_x = w2.box_x) (hby : w1.box_y = w2.box_y) :
    pixelBytes w1 = pixelBytes w2 := by
  funext i
  unfold pixelBytes
  rw [hbx, hby]

lemma draw_eq_of_same_position (w1 w2 : World) (f : List ℕ)
    (hbx : w1.box_x = w2.box_x) (hby : w1.box_y = w2.box_y) :
    w1.draw f = w2.draw f := by
  unfold World.draw
  rw [pixelBytes_velocity_independent w1 w2 hbx hby]

/-- Witness for C4 at a concrete state just touching the right edge. -/
theorem reflection_one_past_right_edge_witness :
    (World.update { box_x := 256, box_y := 16, velocity_x := 1, velocity_y := 1 }).velocity_x = 1 ∧
    (World.update { box_x := 256, box_y := 16, velocity_x := 1, velocity_y := 1 }).box_x = 257 ∧
    (World.update (World.update { box_x := 256, box_y := 16, velocity_x := 1, velocity_y := 1 })).velocity_x = -1 ∧
    (World.update (World.update { box_x := 256, box_y := 16, velocity_x := 1, velocity_y := 1 })).box_x = 256 :=
  reflection_one_past_right_edge { box_x := 256, box_y := 16, velocity_x := 1, velocity_y := 1 }
    rfl rfl


/-- C2: for every representable world state and every buffer of the exact
frame length 320*240*4, the 4-byte chunk at pixel index i (x = i mod width,
y = i div width, row-major from top-left) of the drawn buffer is the box
color exactly when box_x <= x < box_x + 64 and box_y <= y < box_y + 64 over
the integers, and the background color otherwise. -/
theorem draw_pixel_colors (w : World) (frame : List ℕ) (hw : valid16 w)
    (hf : frame.length = 307200) (i : ℕ) (hi : i < 76800) :
    ((w.draw frame).drop (4 * i)).take 4 =
      if w.box_x ≤ ((i % 320 : ℕ) : ℤ) ∧ ((i % 320 : ℕ) : ℤ) < w.box_x + 64 ∧
         w.box_y ≤ ((i / 320 : ℕ) : ℤ) ∧ ((i / 320 : ℕ) : ℤ) < w.box_y + 64
      then boxColor else backgroundColor := by
  obtain ⟨hx1, hx2, hy1, hy2, -, -, -, -⟩ := hw
  rw [draw_chunk w frame i (by rw [hf]; omega)]
  unfold pixelBytes
  dsimp only
  refine if_congr ?_ rfl rfl
  simp only [wrap16, WIDTH, BOX_SIZE]
  omega

/-- Witness for C2 at the state box_x = 24, box_y = 16: the pixels (24, 16)
at chunk index 5144 and (87, 79) at chunk index 25367 are the box color, and
the pixels (0, 0) at chunk index 0 and (319, 239) at chunk index 76799 are
the background color. -/
theorem draw_pixel_colors_witness :
    ((World.new.draw (List.replicate 307200 0)).drop (4 * 5144)).take 4 = boxColor ∧
    ((World.new.draw (List.replicate 307200 0)).drop (4 * 25367)).take 4 = boxColor ∧
    ((World.new.draw (List.replicate 307200 0)).drop (4 * 0)).take 4 = backgroundColor ∧
    ((World.new.draw (List.replicate 307200 0)).drop (4 * 76799)).take 4 = backgroundColor := by
  refine ⟨?_, ?_, ?_, ?_⟩ <;>
    [rw [draw_pixel_colors World.new (List.replicate 307200 0) (by decide)
      (by rw [List.length_replicate]) 5144 (by norm_num)];
     rw [draw_pixel_colors World.new (List.replicate 307200 0) (by decide)
      (by rw [List.length_replicate]) 25367 (by norm_num)];
     rw [draw_pixel_colors World.new (List.replicate 307200 0) (by decide)
      (by rw [List.length_replicate]) 0 (by norm_num)];
     rw [draw_pixel_colors World.new (List.replicate 307200 0) (by decide)
      (by rw [List.length_replicate]) 76799 (by norm_num)]] <;>
    decide

/-- C5: for every world state (no restriction) and every buffer of the exact
frame length, draw overwrites the whole buffer: the output has the same
307200 bytes, it equals a function of the state alone (so every input byte
was written over), and every 4-byte pixel chunk is either the box color or
the background color — no third value and no unwritten byte. -/
theorem draw_two_colors_everywhere (w : World) (frame : List ℕ)
    (hf : frame.length = 307200) :
    (w.draw frame).length = 307200 ∧
    w.draw frame = (List.range 76800).flatMap (pixelBytes w) ∧
    ∀ i < 76800, ((w.draw frame).drop (4 * i)).take 4 = boxColor ∨
      ((w.draw frame).drop (4 * i)).take 4 = backgroundColor := by
  refine ⟨by rw [draw_length, hf], ?_, ?_⟩
  · unfold World.draw
    rw [hf]
    norm_num
    omega
  · intro i hi
    rw [draw_chunk w frame i (by rw [hf]; omega)]
    exact pixelBytes_two_colors w i

/-- Witness for C5 at an arbitrary off-screen state and chunk 0. -/
theorem draw_two_colors_everywhere_witness :
    (World.draw { box_x := 300, box_y := -40, velocity_x := 5, velocity_y := 7 }
        (List.replicate 307200 0)).length = 307200 ∧
    World.draw { box_x := 300, box_y := -40, velocity_x := 5, velocity_y := 7 }
        (List.replicate 307200 0) =
      (List.range 76800).flatMap
        (pixelBytes { box_x := 300, box_y := -40, velocity_x := 5, velocity_y := 7 }) ∧
    (((World.draw { box_x := 300, box_y := -40, velocity_x := 5, velocity_y := 7 }
        (List.replicate 307200 0)).drop (4 * 0)).take 4 = boxColor ∨
     ((World.draw { box_x := 300, box_y := -40, velocity_x := 5, velocity_y := 7 }
        (List.replicate 307200 0)).drop (4 * 0)).take 4 = backgroundColor) :=
  ⟨(draw_two_colors_everywhere _ _ (by rw [List.length_replicate])).1,
   (draw_two_colors_everywhere _ _ (by rw [List.length_replicate])).2.1,
   (draw_two_colors_everywhere _ _ (by rw [List.length_replicate])).2.2 0 (by norm_num)⟩

/-- Counterexample to C7 as stated: on two buffers of equal length 1 the
chunk walk visits no chunk (chunks_exact with width 4), the single trailing
byte is left as it was, and the two outputs differ byte for byte. -/
theorem draw_same_length_cex :
    ([(0 : ℕ)].length = [(1 : ℕ)].length) ∧
    World.new.draw [0] ≠ World.new.draw [1] := by
  decide

/-- C7 (amended): calling draw twice with the identical world state on
buffers of the same length produces byte-identical buffers, provided that
common length is a multiple of 4 — in particular the intended frame length
width*height*4; only the trailing length mod 4 bytes, which the chunk walk
never touches, escape this. -/
theorem draw_deterministic_chunked (w : World) (f1 f2 : List ℕ)
    (hlen : f1.length = f2.length) (hdvd : 4 ∣ f1.length) :
    w.draw f1 = w.draw f2 :=
  draw_eq_of_chunked_length w f1 f2 hlen hdvd

/-- Witness for C7 on two distinct buffers of length 8. -/
theorem draw_deterministic_chunked_witness :
    World.new.draw (List.replicate 8 0) = World.new.draw (List.replicate 8 1) :=
  draw_deterministic_chunked World.new _ _ (by decide) (by decide)

/-- Counterexample to C10 as stated: two states with equal positions and
different velocities, drawn into the equal-length buffers [0] and [1]: the
trailing byte is never written, so the outputs differ. -/
theorem draw_velocity_cex :
    ({ box_x := 24, box_y := 16, velocity_x := 1, velocity_y := 1 } : World).box_x =
      ({ box_x := 24, box_y := 16, velocity_x := -1, velocity_y := -1 } : World).box_x ∧
    ({ box_x := 24, box_y := 16, velocity_x := 1, velocity_y := 1 } : World).box_y =
      ({ box_x := 24, box_y := 16, velocity_x := -1, velocity_y := -1 } : World).box_y ∧
    ([(0 : ℕ)].length = [(1 : ℕ)].length) ∧
    World.draw { box_x := 24, box_y := 16, velocity_x := 1, velocity_y := 1 } [0] ≠
      World.draw { box_x := 24, box_y := 16, velocity_x := -1, velocity_y := -1 } [1] := by
  decide

/-- C10 (amended): the output of draw does not depend on the velocity
fields: two states with equal box_x and box_y and arbitrary velocities drawn
into buffers of equal length give byte-identical outputs, provided that
common length is a multiple of 4 (in particular the intended frame length);
the trailing length mod 4 bytes are never written by either call. -/
theorem draw_velocity_independent (w1 w2 : World) (f1 f2 : List ℕ)
    (hbx : w1.box_x = w2.box_x) (hby : w1.box_y = w2.box_y)
    (hlen : f1.length = f2.length) (hdvd : 4 ∣ f1.length) :
    w1.draw f1 = w2.draw f2 :=
  (draw_eq_of_chunked_length w1 f1 f2 hlen hdvd).trans
    (draw_eq_of_same_position w1 w2 f2 hbx hby)

/-- Witness for C10: equal positions, opposite velocities, two length-8
buffers. -/
theorem draw_velocity_independent_witness :
    World.draw { box_x := 24, box_y := 16, velocity_x := 1, velocity_y := 1 }
        (List.replicate 8 2) =
      World.draw { box_x := 24, box_y := 16, velocity_x := -1, velocity_y := -1 }
        (List.replicate 8 3) :=
  draw_velocity_independent _ _ _ _ rfl rfl (by decide) (by decide)
